import Mathlib

/-!
Shallow embedding of hwloc's Level Zero discovery backend
(`src/hwloc/topology-levelzero.c`) and proofs about it.

The embedding keeps the source's structure:
* `buildArray` / `buildInserts` model the per-device append sequence of
  `hwloc__levelzero_devices_get` (lines 596-611): each successfully
  correlated device is inserted into the tree and appended to the osdev
  array, immediately followed by its successfully created subdevices.
* `devicesGet` models the driver-listing prologue (lines 392-423).
* `capturePort` / `portsGet` model `hwloc__levelzero_ports_get`.
* `xelinkAccumPair` / `connectAccum` model the accumulation double loop of
  `hwloc__levelzero_ports_connect` (lines 672-708).
* `writeBlock` / `sentinelFill` model the synthetic-locality fill loop of
  `hwloc__levelzero_ports_connect` (lines 721-732).
* `memStep` / `memAccOf` / `memoryGet` model `hwloc__levelzero_memory_get`.
* `coreInfos` / `sysmanInfos` / `propertiesGet` model
  `hwloc__levelzero_properties_get`.

Driver calls are black boxes: each query result is an `Option` payload
(`none` = the call returned a failure code).  Machine integers are `Nat`;
the only arithmetic the source does on them here is shifting
(`>> 10`, `>> 20`) and addition, which cannot overflow at the modelled
magnitudes, so no modular reduction is introduced.  Allocation is modelled
as succeeding (allocation failure only drops work, it is not part of any
claim below).
-/

namespace LevelZero

/-! ## Device enumeration and the osdev array (Device Registry) -/

/-- Registry entry: a device object is `(z, none)` where `z` is the running
`zeidx` counter (the device named `ze<z>`), and its `k`-th subdevice object
is `(z, some k)` (named `ze<z>.<k>`). -/
abbrev DevObj := Nat × Option Nat

/-- Outcome of the external queries for one device of the flattened
driver/device iteration of `hwloc__levelzero_devices_get`:
`ok` is true when both `zeDeviceGetProperties` and
`zesDriverGetDeviceByUuidExp` succeeded for the device (otherwise the
device is skipped with `continue`); `subok` has one entry per reported
subdevice, true when both per-subdevice calls succeeded (otherwise that
subdevice is skipped). -/
structure DevSpec where
  ok : Bool
  subok : List Bool
deriving DecidableEq

/-- Subdevice registry entries produced for device `z`: subdevice `k` is
kept exactly when its queries succeeded, in enumeration order
(the `for(k=0; k<nr_subdevices; k++)` loop with `if (subosdevs[k])`). -/
def subEntries (z : Nat) (subok : List Bool) : List DevObj :=
  subok.enum.filterMap (fun kb => if kb.2 then some (z, some kb.1) else none)

/-- The osdev array (`oarray`) built by the main device loop: for each
non-skipped device, `hwloc__levelzero_osdev_array_add` appends the device
object and then each surviving subdevice object, and `zeidx` is bumped;
skipped devices append nothing and do not bump `zeidx`. -/
def buildArray : Nat → List DevSpec → List DevObj
  | _, [] => []
  | z, s :: rest =>
    if s.ok then ((z, none) :: subEntries z s.subok) ++ buildArray (z + 1) rest
    else buildArray z rest

/-- The tree-insertion sequence produced by the same loop: each
`hwloc_insert_object_by_parent` call happens right before the
corresponding `hwloc__levelzero_osdev_array_add` call, for the device and
then for each surviving subdevice. -/
def buildInserts : Nat → List DevSpec → List DevObj
  | _, [] => []
  | z, s :: rest =>
    if s.ok then ((z, none) :: subEntries z s.subok) ++ buildInserts (z + 1) rest
    else buildInserts z rest

/-- Environment of the driver-listing prologue of
`hwloc__levelzero_devices_get` (lines 392-423): the counts returned by the
first `zeDriverGet` and `zesDriverGet` calls (`none` = the call failed),
success of the two handle-filling second calls, and the flattened device
outcomes used when listing proceeds. -/
structure DriverEnv where
  zeCount : Option Nat
  zesCount : Option Nat
  zeList : Bool
  zesList : Bool
  specs : List DevSpec
deriving DecidableEq

/-- Result of `hwloc__levelzero_devices_get`: the `added` return value and
the osdev array contents.  Mirrors the early returns: `zeDriverGet`
failure or zero drivers, `zesDriverGet` failure or a count different from
`nbdrivers`, and failure of either handle-filling call all return zero
devices with nothing registered. -/
def devicesGet (env : DriverEnv) : Nat × List DevObj :=
  match env.zeCount with
  | none => (0, [])
  | some nbdrivers =>
    if nbdrivers = 0 then (0, [])
    else
      match env.zesCount with
      | none => (0, [])
      | some zcount =>
        if zcount ≠ nbdrivers then (0, [])
        else if !env.zeList then (0, [])
        else if !env.zesList then (0, [])
        else ((buildArray 0 env.specs).length, buildArray 0 env.specs)

/-! ## Fabric ports (`hwloc__levelzero_ports_get`) -/

/-- Identity of a fabric port (`zes_fabric_port_id_t`). -/
structure PortId where
  fabricId : Nat
  attachId : Nat
  portNumber : Nat
deriving DecidableEq

/-- Health status of a fabric port (`zes_fabric_port_status_t`). -/
inductive PortStatus where
  | unknown
  | healthy
  | degraded
  | failed
  | disabled
deriving DecidableEq

/-- Static fabric-port properties (`zes_fabric_port_properties_t`), the
fields the source reads. -/
structure FPProps where
  onSubdevice : Bool
  subdeviceId : Nat
  model : String
  portId : PortId
deriving DecidableEq

/-- Live fabric-port state (`zes_fabric_port_state_t`), the fields the
source reads (`rxBitRate` is `rxSpeed.bitRate`). -/
structure FPState where
  status : PortStatus
  remotePortId : PortId
  rxBitRate : Nat
deriving DecidableEq

/-- One port as handed back by the driver: the results of
`zesFabricPortGetProperties` and `zesFabricPortGetState`
(`none` = the call failed). -/
structure RawPort where
  props : Option FPProps
  state : Option FPState
deriving DecidableEq

/-- A retained entry of the Fabric Port Registry
(`struct hwloc_levelzero_port`).  Device objects are opaque identifiers
(`Nat` models the `hwloc_obj_t` pointer, compared by identity). -/
structure Port where
  osdev : Nat
  parent_osdev : Option Nat
  props : FPProps
  state : FPState
deriving DecidableEq

/-- Processing of one enumerated port in `hwloc__levelzero_ports_get`:
skip on a failed properties query; for an on-subdevice port resolve the
owning subdevice object (skip when `subdeviceId` is out of range of
`sub_osdevs`) and record the root device as parent; for an on-device port
the owner is the root device and there is no parent; skip on a failed
state query; finally retain the port only when its status is healthy or
degraded (`hports->nr++`). -/
def capturePort (root : Nat) (subs : List Nat) (r : RawPort) : Option Port :=
  match r.props with
  | none => none
  | some props =>
    match (if props.onSubdevice then
             (match subs[props.subdeviceId]? with
              | some o => some (o, some root)
              | none => none)
           else some (root, (none : Option Nat))) with
    | none => none
    | some od =>
      match r.state with
      | none => none
      | some st =>
        if st.status = PortStatus.healthy ∨ st.status = PortStatus.degraded
        then some ⟨od.1, od.2, props, st⟩
        else none

/-- Ports retained for one device by `hwloc__levelzero_ports_get`. -/
def portsGet (root : Nat) (subs : List Nat) (raw : List RawPort) : List Port :=
  raw.filterMap (capturePort root subs)

/-- The Fabric Port Registry accumulated over the whole discovery pass:
`hwloc__levelzero_ports_get` appends each device's retained ports to the
shared `hports` list.  Each element of `devs` is
(root device object, subdevice objects, enumerated raw ports). -/
def portsRegistry (devs : List (Nat × List Nat × List RawPort)) : List Port :=
  devs.foldl (fun acc d => acc ++ portsGet d.1 d.2.1 d.2.2) []

/-! ## Bandwidth accumulation (`hwloc__levelzero_ports_connect`) -/

/-- Linear identity scan of the osdev array
(`hwloc__levelzero_osdev_array_find`): first index holding the given
object, `none` for the source's `-1`. -/
def osdevArrayFind (oa : List Nat) (o : Nat) : Option Nat :=
  oa.findIdx? (fun x => x == o)

/-- Matrix update `bws[idx] += v` on the flat `oarray->nr * oarray->nr`
value array. -/
def addFlat (bws : Nat → Nat) (idx v : Nat) : Nat → Nat :=
  fun x => if x = idx then bws x + v else bws x

/-- Body of the inner pair loop of `hwloc__levelzero_ports_connect` for a
matched pair (remote id of `p` equals local id of `q`): keep only XeLink
(`strcmp(model, "XeLink")`), resolve both owners in the osdev array, add
`rxBitRate >> 20` at `(iindex, jindex)`, and when both ports record a
parent device and both parents resolve, add the same amount at the parent
pair as well. -/
def xelinkAccumPair (nr : Nat) (oa : List Nat) (p q : Port) (bws : Nat → Nat) :
    Nat → Nat :=
  if p.state.remotePortId = q.props.portId then
    if q.props.model = "XeLink" then
      match osdevArrayFind oa p.osdev, osdevArrayFind oa q.osdev with
      | some ii, some jj =>
        let bws1 := addFlat bws (ii * nr + jj) (p.state.rxBitRate >>> 20)
        (match p.parent_osdev, q.parent_osdev with
         | some pp, some qp =>
           (match osdevArrayFind oa pp, osdevArrayFind oa qp with
            | some ii2, some jj2 => addFlat bws1 (ii2 * nr + jj2) (p.state.rxBitRate >>> 20)
            | _, _ => bws1)
         | _, _ => bws1)
      | _, _ => bws
    else bws
  else bws

/-- The full accumulation double loop: for every healthy port `i` and
every other port `j` whose local identity matches `i`'s reported remote
identity, run the pair body. -/
def connectAccum (nr : Nat) (oa : List Nat) (ports : List Port)
    (bws : Nat → Nat) : Nat → Nat :=
  ports.enum.foldl
    (fun b ip =>
      if ip.2.state.status = PortStatus.healthy then
        ports.enum.foldl
          (fun b2 jq => if ip.1 = jq.1 then b2 else xelinkAccumPair nr oa ip.2 jq.2 b2)
          b
      else b)
    bws

/-- Pure per-pair contribution at one flat matrix cell: what
`xelinkAccumPair` adds there. -/
def pairDelta (nr : Nat) (oa : List Nat) (p q : Port) (cell : Nat) : Nat :=
  if p.state.remotePortId = q.props.portId then
    if q.props.model = "XeLink" then
      match osdevArrayFind oa p.osdev, osdevArrayFind oa q.osdev with
      | some ii, some jj =>
        (if cell = ii * nr + jj then p.state.rxBitRate >>> 20 else 0) +
        (match p.parent_osdev, q.parent_osdev with
         | some pp, some qp =>
           (match osdevArrayFind oa pp, osdevArrayFind oa qp with
            | some ii2, some jj2 =>
              if cell = ii2 * nr + jj2 then p.state.rxBitRate >>> 20 else 0
            | _, _ => 0)
         | _, _ => 0)
      | _, _ => 0
    else 0
  else 0

/-- Contribution of the inner loop run for outer port `(i, p)` at one
cell: the sum of the per-pair contributions over all inner ports `j ≠ i`. -/
def pairDeltaAt (nr : Nat) (oa : List Nat) (ports : List Port) (i : Nat)
    (p : Port) (cell : Nat) : Nat :=
  (ports.enum.map (fun jq => if i = jq.1 then 0 else pairDelta nr oa p jq.2 cell)).sum

/-- Total amount the accumulation phase adds at one cell: the sum over all
healthy outer ports of their inner-loop contributions. -/
def healthyDelta (nr : Nat) (oa : List Nat) (ports : List Port) (cell : Nat) : Nat :=
  (ports.enum.map
    (fun ip =>
      if ip.2.state.status = PortStatus.healthy
      then pairDeltaAt nr oa ports ip.1 ip.2 cell
      else 0)).sum

/-! ## Synthetic locality fill (`hwloc__levelzero_ports_connect`, end) -/

/-- Matrix store `bws[idx] = v` on the flat value array. -/
def setFlat (bws : Nat → Nat) (idx v : Nat) : Nat → Nat :=
  fun x => if x = idx then v else bws x

/-- The two nested fill loops at one outer position `i` with subdevice
count `c`: `for(j=0; j<c+1; j++) for(k=0; k<c+1; k++)
bws[(i+j)*nr+(i+k)] = 1000000`. -/
def writeBlock (nr i c : Nat) (bws : Nat → Nat) : Nat → Nat :=
  (List.range (c + 1)).foldl
    (fun b j =>
      (List.range (c + 1)).foldl
        (fun b2 k => setFlat b2 ((i + j) * nr + (i + k)) 1000000)
        b)
    bws

/-- The outer fill walk: starting from position `i`, while `i < nr` write
the sentinel block for the subdevice count `nrsd i` recorded at entry `i`
(the parsed "LevelZeroSubdevices" attribute, 0 if absent), then skip past
the whole range (`i += nrsd` plus the loop increment). -/
def sentinelFill (nr : Nat) (nrsd : Nat → Nat) (i : Nat) (bws : Nat → Nat) :
    Nat → Nat :=
  if h : i < nr then
    sentinelFill nr nrsd (i + nrsd i + 1) (writeBlock nr i (nrsd i) bws)
  else bws
termination_by nr - i
decreasing_by omega

/-- Positions at which the outer fill walk lands: it starts at 0, and from
a landing at `i` the next landing is `i + nrsd i + 1`. -/
inductive Lands (nrsd : Nat → Nat) : Nat → Prop where
  | zero : Lands nrsd 0
  | step : ∀ i, Lands nrsd i → Lands nrsd (i + nrsd i + 1)

/-! ## Memory modules (`hwloc__levelzero_memory_get`) -/

/-- Memory technology (`zes_mem_type_t`), the constants the source's
switch distinguishes plus a default for everything else. -/
inductive MemType where
  | hbm
  | ddr
  | ddr3
  | ddr4
  | ddr5
  | lpddr
  | lpddr3
  | lpddr4
  | lpddr5
  | other
deriving DecidableEq

/-- Whether the type falls in the DDR bucket of the switch. -/
def MemType.isDdr : MemType → Bool
  | .ddr | .ddr3 | .ddr4 | .ddr5 | .lpddr | .lpddr3 | .lpddr4 | .lpddr5 => true
  | _ => false

/-- Label chosen by the switch: "HBM", "DDR", or the generic "Memory". -/
def memTypeLabel (t : MemType) : String :=
  if t = MemType.hbm then "HBM" else if t.isDdr then "DDR" else "Memory"

/-- Static memory-module properties (`zes_mem_properties_t`), the fields
the source reads. -/
structure MemProps where
  physicalSize : Nat
  onSubdevice : Bool
  subdeviceId : Nat
  mtype : MemType
deriving DecidableEq

/-- Live memory state (`zes_mem_state_t`), the field the source reads. -/
structure MemState where
  size : Nat
deriving DecidableEq

/-- One enumerated memory module: results of `zesMemoryGetProperties` and
`zesMemoryGetState` (`none` = the call failed). -/
structure MemModule where
  props : Option MemProps
  state : Option MemState
deriving DecidableEq

/-- Effective size of a module: when the reported `physicalSize` is zero,
fall back to the live-state size if that query succeeded (otherwise the
size stays zero). -/
def effSize (m : MemModule) (p : MemProps) : Nat :=
  if p.physicalSize = 0 then
    match m.state with
    | some s => s.size
    | none => 0
  else p.physicalSize

/-- Loop state of the module loop: the two aggregate totals (in kibibytes)
and the per-subdevice attribute attachments made so far
(subdevice object, attribute name, value in kibibytes). -/
structure MemAcc where
  totalHBMkB : Nat
  totalDDRkB : Nat
  subInfos : List (Nat × String × Nat)
deriving DecidableEq

/-- One iteration of the module loop: skip on a failed properties query;
apply the zero-size fallback; resolve the owning object (`none` when the
module is on a subdevice whose id is out of range — it is then ignored for
attribution); aggregate the size into the technology bucket (this happens
before the attribution guard, so out-of-range modules still aggregate);
then attach a per-subdevice size attribute only when an owner was
resolved, the size is nonzero, and the owner is not the root device. -/
def memStep (root : Nat) (subs : List Nat) (acc : MemAcc) (m : MemModule) : MemAcc :=
  match m.props with
  | none => acc
  | some p =>
    let size := effSize m p
    let osdev : Option Nat := if p.onSubdevice then subs[p.subdeviceId]? else some root
    let acc1 : MemAcc :=
      { acc with
        totalHBMkB := acc.totalHBMkB + (if p.mtype = MemType.hbm then size >>> 10 else 0)
        totalDDRkB := acc.totalDDRkB + (if p.mtype.isDdr then size >>> 10 else 0) }
    match osdev with
    | none => acc1
    | some o =>
      if size ≠ 0 ∧ o ≠ root then
        { acc1 with
          subInfos := acc1.subInfos ++
            [(o, "LevelZero" ++ memTypeLabel p.mtype ++ "Size", size >>> 10)] }
      else acc1

/-- The whole module loop starting from zero totals. -/
def memAccOf (root : Nat) (subs : List Nat) (mods : List MemModule) : MemAcc :=
  mods.foldl (memStep root subs) ⟨0, 0, []⟩

/-- Result of `hwloc__levelzero_memory_get`: `none` models the `-1` return
when `zesDeviceEnumMemoryModules` fails, otherwise the processed loop
state. -/
def memoryGet (root : Nat) (subs : List Nat) (mods : Option (List MemModule)) :
    Option MemAcc :=
  match mods with
  | none => none
  | some l => some (memAccOf root subs l)

/-- Root-device attribute attachments made after the loop: each bucket
total is written once, only when nonzero. -/
def memRootInfos (acc : MemAcc) : List (String × Nat) :=
  (if acc.totalHBMkB ≠ 0 then [("LevelZeroHBMSize", acc.totalHBMkB)] else []) ++
  (if acc.totalDDRkB ≠ 0 then [("LevelZeroDDRSize", acc.totalDDRkB)] else [])

/-- Pure per-module contribution to the HBM bucket total. -/
def hbmContrib (m : MemModule) : Nat :=
  match m.props with
  | none => 0
  | some p => if p.mtype = MemType.hbm then effSize m p >>> 10 else 0

/-- Pure per-module contribution to the DDR bucket total. -/
def ddrContrib (m : MemModule) : Nat :=
  match m.props with
  | none => 0
  | some p => if p.mtype.isDdr then effSize m p >>> 10 else 0

/-- Pure per-module subdevice attribution: the attachment the loop body
makes for this module, if any. -/
def subInfoOf (root : Nat) (subs : List Nat) (m : MemModule) :
    Option (Nat × String × Nat) :=
  match m.props with
  | none => none
  | some p =>
    let size := effSize m p
    match (if p.onSubdevice then subs[p.subdeviceId]? else some root) with
    | none => none
    | some o =>
      if size ≠ 0 ∧ o ≠ root then
        some (o, "LevelZero" ++ memTypeLabel p.mtype ++ "Size", size >>> 10)
      else none

/-! ## Device properties (`hwloc__levelzero_properties_get`) -/

/-- Device type (`ze_device_type_t`), the constants of the switch plus a
default. -/
inductive DeviceType where
  | gpu
  | cpu
  | fpga
  | mca
  | vpu
  | other
deriving DecidableEq

/-- Name chosen by the device-type switch; unrecognized values map to
"Unknown". -/
def deviceTypeStr : DeviceType → String
  | .gpu => "GPU"
  | .cpu => "CPU"
  | .fpga => "FPGA"
  | .mca => "MCA"
  | .vpu => "VPU"
  | .other => "Unknown"

/-- Core device properties (`ze_device_properties_t`), the fields the
source reads; `isSubdevice` models
`flags & ZE_DEVICE_PROPERTY_FLAG_SUBDEVICE`, and `uuid` the
`ZE_MAX_DEVICE_UUID_SIZE` identity bytes. -/
structure CoreProps where
  dtype : DeviceType
  numSlices : Nat
  numSubslicesPerSlice : Nat
  numEUsPerSubslice : Nat
  numThreadsPerEU : Nat
  uuid : List Nat
  isSubdevice : Bool
deriving DecidableEq

/-- Sysman device properties (`zes_device_properties_t`), the string
fields the source reads. -/
structure SysmanProps where
  vendorName : String
  modelName : String
  brandName : String
  serialNumber : String
  boardNumber : String
deriving DecidableEq

/-- Lowercase hex digit, as printf "%x" produces. -/
def hexDigit (n : Nat) : Char :=
  if n < 10 then Char.ofNat (48 + n) else Char.ofNat (87 + n)

/-- Rendering of one identity byte with "%02x". -/
def hexByte (b : Nat) : String :=
  String.mk [hexDigit ((b / 16) % 16), hexDigit (b % 16)]

/-- Rendering of the whole identity token as a lowercase hex string. -/
def uuidHex (bytes : List Nat) : String :=
  String.join (bytes.map hexByte)

/-- Attributes attached from the core properties (the `if (prop)` block):
device type, the four unit counts, and the identity token. -/
def coreInfos (p : CoreProps) : List (String × String) :=
  [("LevelZeroDeviceType", deviceTypeStr p.dtype),
   ("LevelZeroNumSlices", toString p.numSlices),
   ("LevelZeroNumSubslicesPerSlice", toString p.numSubslicesPerSlice),
   ("LevelZeroNumEUsPerSubslice", toString p.numEUsPerSubslice),
   ("LevelZeroNumThreadsPerEU", toString p.numThreadsPerEU),
   ("LevelZeroUUID", uuidHex p.uuid)]

/-- Attributes attached from the sysman properties: each string is
attached only when `strcasecmp(s, "Unknown")` is nonzero, i.e. when the
string is not case-insensitively equal to the sentinel. -/
def sysmanInfos (p2 : SysmanProps) : List (String × String) :=
  (if p2.vendorName.toLower ≠ "unknown" then [("LevelZeroVendor", p2.vendorName)] else []) ++
  (if p2.modelName.toLower ≠ "unknown" then [("LevelZeroModel", p2.modelName)] else []) ++
  (if p2.brandName.toLower ≠ "unknown" then [("LevelZeroBrand", p2.brandName)] else []) ++
  (if p2.serialNumber.toLower ≠ "unknown" then [("LevelZeroSerialNumber", p2.serialNumber)] else []) ++
  (if p2.boardNumber.toLower ≠ "unknown" then [("LevelZeroBoardNumber", p2.boardNumber)] else [])

/-- Whether the unit is a subdevice according to the available core
properties; when no core properties could be obtained, `is_subdevice`
stays 0 in the source. -/
def propsIsSubdevice (prop : Option CoreProps) : Bool :=
  match prop with
  | some p => p.isSubdevice
  | none => false

/-- All attributes attached by `hwloc__levelzero_properties_get`:
the core block when core properties are available, then — unless the unit
is a subdevice, for which the sysman duplicates are skipped — the sysman
block when `zesDeviceGetProperties` succeeded. -/
def propertiesGet (prop : Option CoreProps) (prop2 : Option SysmanProps) :
    List (String × String) :=
  (match prop with
   | some p => coreInfos p
   | none => []) ++
  (if propsIsSubdevice prop then []
   else
     match prop2 with
     | some p2 => sysmanInfos p2
     | none => [])

/-! ## Helper lemmas -/

/-- Membership in a left fold that appends per-element lists. -/
theorem mem_foldl_append {α β : Type} (f : α → List β) (l : List α) :
    ∀ (init : List β) (b : β), b ∈ l.foldl (fun acc d => acc ++ f d) init →
      b ∈ init ∨ ∃ d ∈ l, b ∈ f d := by
  induction l with
  | nil => intro init b h; exact Or.inl h
  | cons a t ih =>
    intro init b h
    rcases ih (init ++ f a) b h with h1 | ⟨d, hd, hb⟩
    · rcases List.mem_append.mp h1 with h2 | h2
      · exact Or.inl h2
      · exact Or.inr ⟨a, List.mem_cons_self a t, h2⟩
    · exact Or.inr ⟨d, List.mem_cons_of_mem a hd, hb⟩

/-- A retained port always has healthy or degraded status. -/
theorem capturePort_status {root : Nat} {subs : List Nat} {r : RawPort} {p : Port}
    (h : capturePort root subs r = some p) :
    p.state.status = PortStatus.healthy ∨ p.state.status = PortStatus.degraded := by
  unfold capturePort at h
  split at h
  · exact absurd h (by simp)
  · split at h
    · exact absurd h (by simp)
    · split at h
      · exact absurd h (by simp)
      · split at h
        · rename_i st hcond
          cases h
          exact hcond
        · exact absurd h (by simp)

/-- A retained port's owner is the root device or one of its subdevices. -/
theorem capturePort_osdev {root : Nat} {subs : List Nat} {r : RawPort} {p : Port}
    (h : capturePort root subs r = some p) : p.osdev = root ∨ p.osdev ∈ subs := by
  unfold capturePort at h
  split at h
  · exact absurd h (by simp)
  · rename_i props hprops
    split at h
    · exact absurd h (by simp)
    · rename_i od hod
      split at h
      · exact absurd h (by simp)
      · split at h
        · cases h
          split at hod
          · split at hod
            · rename_i o hsome
              cases hod
              exact Or.inr (List.getElem?_mem hsome)
            · exact absurd hod (by simp)
          · cases hod
            exact Or.inl rfl
        · exact absurd h (by simp)

/-! ## Claim theorems -/

/-- C5: if the monitoring-extension driver listing fails, or the two
enumeration APIs report different driver counts, the enumerator aborts the
pass non-fatally, returning zero devices and registering nothing. -/
theorem claim_c5 (env : DriverEnv)
    (h : env.zesCount = none ∨
         ∃ n z, env.zeCount = some n ∧ env.zesCount = some z ∧ z ≠ n) :
    devicesGet env = (0, []) := by
  unfold devicesGet
  rcases h with h | ⟨n, z, hze, hzes, hne⟩
  · cases hz : env.zeCount with
    | none => rfl
    | some nb =>
      by_cases hnb : nb = 0
      · simp [hnb]
      · simp [hnb, h]
  · rw [hze, hzes]
    by_cases hn : n = 0
    · simp [hn]
    · simp [hn, hne]

/-- C5 witness: a concrete environment with mismatching driver counts. -/
theorem claim_c5_witness :
    ((some 1 : Option Nat) = none ∨
      ∃ n z, (some 2 : Option Nat) = some n ∧ (some 1 : Option Nat) = some z ∧ z ≠ n) ∧
    devicesGet ⟨some 2, some 1, true, true, [⟨true, []⟩]⟩ = (0, []) :=
  ⟨Or.inr ⟨2, 1, rfl, rfl, by decide⟩,
   claim_c5 ⟨some 2, some 1, true, true, [⟨true, []⟩]⟩ (Or.inr ⟨2, 1, rfl, rfl, by decide⟩)⟩

/-- C6: every port observation retained in the Fabric Port Registry has
health status healthy or degraded; ports whose queries failed or whose
status is anything else are discarded at capture time and never reach the
Bandwidth Matrix Builder. -/
theorem claim_c6 (devs : List (Nat × List Nat × List RawPort)) (p : Port)
    (hp : p ∈ portsRegistry devs) :
    p.state.status = PortStatus.healthy ∨ p.state.status = PortStatus.degraded := by
  unfold portsRegistry at hp
  rcases mem_foldl_append _ devs [] p hp with h | ⟨d, _, hmem⟩
  · exact absurd h (by simp)
  · rcases List.mem_filterMap.mp hmem with ⟨r, _, hcap⟩
    exact capturePort_status hcap

/-- C6 witness: a device with one healthy captured port. -/
theorem claim_c6_witness :
    (⟨5, none, ⟨false, 0, "XeLink", ⟨1, 2, 3⟩⟩, ⟨PortStatus.healthy, ⟨4, 5, 6⟩, 100⟩⟩ : Port) ∈
      portsRegistry [(5, [], [⟨some ⟨false, 0, "XeLink", ⟨1, 2, 3⟩⟩,
                              some ⟨PortStatus.healthy, ⟨4, 5, 6⟩, 100⟩⟩])] ∧
    ((⟨5, none, ⟨false, 0, "XeLink", ⟨1, 2, 3⟩⟩, ⟨PortStatus.healthy, ⟨4, 5, 6⟩, 100⟩⟩ : Port).state.status
        = PortStatus.healthy ∨
     (⟨5, none, ⟨false, 0, "XeLink", ⟨1, 2, 3⟩⟩, ⟨PortStatus.healthy, ⟨4, 5, 6⟩, 100⟩⟩ : Port).state.status
        = PortStatus.degraded) :=
  ⟨by decide,
   claim_c6 [(5, [], [⟨some ⟨false, 0, "XeLink", ⟨1, 2, 3⟩⟩,
                      some ⟨PortStatus.healthy, ⟨4, 5, 6⟩, 100⟩⟩])] _ (by decide)⟩

/-- C10: a port reported as on-subdevice whose subdevice index is out of
range of the discovered subdevice nodes is discarded entirely at capture
time, and consequently every retained port references an existing device
unit (the root device or one of its subdevices). -/
theorem claim_c10 (root : Nat) (subs : List Nat) (raw : List RawPort)
    (r : RawPort) (props : FPProps)
    (hp : r.props = some props) (hs : props.onSubdevice = true)
    (hge : subs.length ≤ props.subdeviceId) :
    capturePort root subs r = none ∧
    ∀ p ∈ portsGet root subs raw, p.osdev = root ∨ p.osdev ∈ subs := by
  constructor
  · unfold capturePort
    rw [hp]
    simp [hs, List.getElem?_eq_none hge]
  · intro p hmem
    rcases List.mem_filterMap.mp hmem with ⟨r2, _, hcap⟩
    exact capturePort_osdev hcap

/-- C10 witness: an on-subdevice port with index 3 while only 2 subdevices
exist. -/
theorem claim_c10_witness :
    ((⟨some ⟨true, 3, "XeLink", ⟨1, 2, 3⟩⟩,
       some ⟨PortStatus.healthy, ⟨4, 5, 6⟩, 100⟩⟩ : RawPort).props
        = some ⟨true, 3, "XeLink", ⟨1, 2, 3⟩⟩) ∧
    (capturePort 9 [10, 11]
      ⟨some ⟨true, 3, "XeLink", ⟨1, 2, 3⟩⟩, some ⟨PortStatus.healthy, ⟨4, 5, 6⟩, 100⟩⟩ = none ∧
     ∀ p ∈ portsGet 9 [10, 11]
        [⟨some ⟨true, 3, "XeLink", ⟨1, 2, 3⟩⟩, some ⟨PortStatus.healthy, ⟨4, 5, 6⟩, 100⟩⟩],
       p.osdev = 9 ∨ p.osdev ∈ [10, 11]) :=
  ⟨rfl,
   claim_c10 9 [10, 11]
     [⟨some ⟨true, 3, "XeLink", ⟨1, 2, 3⟩⟩, some ⟨PortStatus.healthy, ⟨4, 5, 6⟩, 100⟩⟩]
     ⟨some ⟨true, 3, "XeLink", ⟨1, 2, 3⟩⟩, some ⟨PortStatus.healthy, ⟨4, 5, 6⟩, 100⟩⟩
     ⟨true, 3, "XeLink", ⟨1, 2, 3⟩⟩ rfl rfl (by decide)⟩

/-- Membership in a conditional singleton list. -/
theorem mem_iteSingle {α : Type} {x a : α} {c : Prop} [Decidable c] :
    (x ∈ if c then [a] else ([] : List α)) ↔ (c ∧ x = a) := by
  split <;> simp_all

/-- Membership in the sysman attribute block. -/
theorem mem_sysmanInfos (p2 : SysmanProps) (x : String × String) :
    x ∈ sysmanInfos p2 ↔
      ((p2.vendorName.toLower ≠ "unknown" ∧ x = ("LevelZeroVendor", p2.vendorName)) ∨
       (p2.modelName.toLower ≠ "unknown" ∧ x = ("LevelZeroModel", p2.modelName)) ∨
       (p2.brandName.toLower ≠ "unknown" ∧ x = ("LevelZeroBrand", p2.brandName)) ∨
       (p2.serialNumber.toLower ≠ "unknown" ∧ x = ("LevelZeroSerialNumber", p2.serialNumber)) ∨
       (p2.boardNumber.toLower ≠ "unknown" ∧ x = ("LevelZeroBoardNumber", p2.boardNumber))) := by
  unfold sysmanInfos
  simp [List.mem_append, mem_iteSingle, or_assoc]

/-- The core attribute block only uses the six core attribute names. -/
theorem coreInfos_keys (cp : CoreProps) (x : String × String) (hx : x ∈ coreInfos cp) :
    x.1 = "LevelZeroDeviceType" ∨ x.1 = "LevelZeroNumSlices" ∨
    x.1 = "LevelZeroNumSubslicesPerSlice" ∨ x.1 = "LevelZeroNumEUsPerSubslice" ∨
    x.1 = "LevelZeroNumThreadsPerEU" ∨ x.1 = "LevelZeroUUID" := by
  unfold coreInfos at hx
  simp only [List.mem_cons, List.not_mem_nil, or_false] at hx
  rcases hx with h | h | h | h | h | h <;> simp [h]

/-- C9: for a non-subdevice unit whose sysman properties query succeeds,
each of the vendor/model/brand/serial/board attributes is attached exactly
when the reported string is not case-insensitively equal to the sentinel
"unknown"; in particular a vendor string equal to "unknown" in any case
yields no vendor attribute at all. -/
theorem claim_c9 (prop : Option CoreProps) (prop2 : Option SysmanProps) (p2 : SysmanProps)
    (hsub : propsIsSubdevice prop = false) (h2 : prop2 = some p2) :
    (∀ v, ("LevelZeroVendor", v) ∈ propertiesGet prop prop2 ↔
      (p2.vendorName.toLower ≠ "unknown" ∧ v = p2.vendorName)) ∧
    (∀ v, ("LevelZeroModel", v) ∈ propertiesGet prop prop2 ↔
      (p2.modelName.toLower ≠ "unknown" ∧ v = p2.modelName)) ∧
    (∀ v, ("LevelZeroBrand", v) ∈ propertiesGet prop prop2 ↔
      (p2.brandName.toLower ≠ "unknown" ∧ v = p2.brandName)) ∧
    (∀ v, ("LevelZeroSerialNumber", v) ∈ propertiesGet prop prop2 ↔
      (p2.serialNumber.toLower ≠ "unknown" ∧ v = p2.serialNumber)) ∧
    (∀ v, ("LevelZeroBoardNumber", v) ∈ propertiesGet prop prop2 ↔
      (p2.boardNumber.toLower ≠ "unknown" ∧ v = p2.boardNumber)) := by
  subst h2
  have hcore : ∀ v key, key = "LevelZeroVendor" ∨ key = "LevelZeroModel" ∨
      key = "LevelZeroBrand" ∨ key = "LevelZeroSerialNumber" ∨ key = "LevelZeroBoardNumber" →
      ¬ ((key, v) ∈ (match prop with | some p => coreInfos p | none => [])) := by
    intro v key hkey hmem
    match prop with
    | none => simp at hmem
    | some cp =>
      have := coreInfos_keys cp (key, v) hmem
      rcases hkey with h | h | h | h | h <;> subst h <;> simp_all
  unfold propertiesGet
  rw [hsub]
  simp only [Bool.false_eq_true, if_false, List.mem_append, mem_sysmanInfos]
  refine ⟨fun v => ?_, fun v => ?_, fun v => ?_, fun v => ?_, fun v => ?_⟩ <;>
    constructor <;> intro h
  · rcases h with h | h
    · exact absurd h (hcore v _ (by simp))
    · rcases h with ⟨hc, he⟩ | ⟨_, he⟩ | ⟨_, he⟩ | ⟨_, he⟩ | ⟨_, he⟩ <;> simp_all
  · exact Or.inr (Or.inl ⟨h.1, by simp [h.2]⟩)
  · rcases h with h | h
    · exact absurd h (hcore v _ (by simp))
    · rcases h with ⟨_, he⟩ | ⟨hc, he⟩ | ⟨_, he⟩ | ⟨_, he⟩ | ⟨_, he⟩ <;> simp_all
  · exact Or.inr (Or.inr (Or.inl ⟨h.1, by simp [h.2]⟩))
  · rcases h with h | h
    · exact absurd h (hcore v _ (by simp))
    · rcases h with ⟨_, he⟩ | ⟨_, he⟩ | ⟨hc, he⟩ | ⟨_, he⟩ | ⟨_, he⟩ <;> simp_all
  · exact Or.inr (Or.inr (Or.inr (Or.inl ⟨h.1, by simp [h.2]⟩)))
  · rcases h with h | h
    · exact absurd h (hcore v _ (by simp))
    · rcases h with ⟨_, he⟩ | ⟨_, he⟩ | ⟨_, he⟩ | ⟨hc, he⟩ | ⟨_, he⟩ <;> simp_all
  · exact Or.inr (Or.inr (Or.inr (Or.inr (Or.inl ⟨h.1, by simp [h.2]⟩))))
  · rcases h with h | h
    · exact absurd h (hcore v _ (by simp))
    · rcases h with ⟨_, he⟩ | ⟨_, he⟩ | ⟨_, he⟩ | ⟨_, he⟩ | ⟨hc, he⟩ <;> simp_all
  · exact Or.inr (Or.inr (Or.inr (Or.inr (Or.inr ⟨h.1, by simp [h.2]⟩))))

/-- C9 witness: a concrete non-subdevice unit whose vendor string is
"UnKnOwN" (suppressed) and whose model string is "Gen12" (kept). -/
theorem claim_c9_witness :
    propsIsSubdevice (some ⟨DeviceType.gpu, 1, 2, 3, 4, [0, 255], false⟩) = false ∧
    (∀ v, ("LevelZeroVendor", v) ∈
        propertiesGet (some ⟨DeviceType.gpu, 1, 2, 3, 4, [0, 255], false⟩)
          (some ⟨"UnKnOwN", "Gen12", "B", "S", "N"⟩) ↔
      (("UnKnOwN" : String).toLower ≠ "unknown" ∧ v = "UnKnOwN")) ∧
    (∀ v, ("LevelZeroModel", v) ∈
        propertiesGet (some ⟨DeviceType.gpu, 1, 2, 3, 4, [0, 255], false⟩)
          (some ⟨"UnKnOwN", "Gen12", "B", "S", "N"⟩) ↔
      (("Gen12" : String).toLower ≠ "unknown" ∧ v = "Gen12")) := by
  refine ⟨rfl, ?_, ?_⟩ <;>
  · have h := claim_c9 (some ⟨DeviceType.gpu, 1, 2, 3, 4, [0, 255], false⟩)
      (some ⟨"UnKnOwN", "Gen12", "B", "S", "N"⟩) ⟨"UnKnOwN", "Gen12", "B", "S", "N"⟩ rfl rfl
    first
      | exact h.1
      | exact h.2.1

/-! ## Memory-module lemmas -/

/-- One loop iteration adds exactly the module's HBM contribution. -/
theorem memStep_totalHBM (root : Nat) (subs : List Nat) (acc : MemAcc) (m : MemModule) :
    (memStep root subs acc m).totalHBMkB = acc.totalHBMkB + hbmContrib m := by
  unfold memStep hbmContrib
  cases hp : m.props with
  | none => rfl
  | some p =>
    simp only []
    split
    · rfl
    · split <;> rfl

/-- One loop iteration adds exactly the module's DDR contribution. -/
theorem memStep_totalDDR (root : Nat) (subs : List Nat) (acc : MemAcc) (m : MemModule) :
    (memStep root subs acc m).totalDDRkB = acc.totalDDRkB + ddrContrib m := by
  unfold memStep ddrContrib
  cases hp : m.props with
  | none => rfl
  | some p =>
    simp only []
    split
    · rfl
    · split <;> rfl

/-- One loop iteration appends exactly the module's attribution, if any. -/
theorem memStep_subInfos (root : Nat) (subs : List Nat) (acc : MemAcc) (m : MemModule) :
    (memStep root subs acc m).subInfos = acc.subInfos ++ (subInfoOf root subs m).toList := by
  unfold memStep subInfoOf
  cases hp : m.props with
  | none => simp
  | some p =>
    simp only []
    split
    · simp
    · split <;> simp

/-- Characterization of the whole module loop: the bucket totals are sums
of per-module contributions and the attributions are the per-module
attributions in order. -/
theorem memAcc_foldl (root : Nat) (subs : List Nat) :
    ∀ (l : List MemModule) (acc : MemAcc),
      (l.foldl (memStep root subs) acc).totalHBMkB
          = acc.totalHBMkB + (l.map hbmContrib).sum ∧
      (l.foldl (memStep root subs) acc).totalDDRkB
          = acc.totalDDRkB + (l.map ddrContrib).sum ∧
      (l.foldl (memStep root subs) acc).subInfos
          = acc.subInfos ++ l.filterMap (subInfoOf root subs) := by
  intro l
  induction l with
  | nil => intro acc; simp
  | cons m t ih =>
    intro acc
    obtain ⟨h1, h2, h3⟩ := ih (memStep root subs acc m)
    refine ⟨?_, ?_, ?_⟩
    · rw [List.foldl_cons, h1, memStep_totalHBM]
      simp [Nat.add_assoc]
    · rw [List.foldl_cons, h2, memStep_totalDDR]
      simp [Nat.add_assoc]
    · rw [List.foldl_cons, h3, memStep_subInfos, List.filterMap_cons]
      cases subInfoOf root subs m <;> simp

/-- C7: a memory module owned by a subdevice whose reported sub-index is
out of range is not attributed to any subdevice tree node, but its size is
still folded into the device-level aggregate total of its technology
bucket. -/
theorem claim_c7 (root : Nat) (subs : List Nat) (l : List MemModule)
    (m : MemModule) (p : MemProps)
    (hm : m ∈ l) (hp : m.props = some p) (hsub : p.onSubdevice = true)
    (hge : subs.length ≤ p.subdeviceId) :
    subInfoOf root subs m = none ∧
    (memAccOf root subs l).subInfos = l.filterMap (subInfoOf root subs) ∧
    (memAccOf root subs l).totalHBMkB = (l.map hbmContrib).sum ∧
    (memAccOf root subs l).totalDDRkB = (l.map ddrContrib).sum ∧
    (p.mtype = MemType.hbm → effSize m p >>> 10 ≤ (memAccOf root subs l).totalHBMkB) ∧
    (p.mtype.isDdr = true → effSize m p >>> 10 ≤ (memAccOf root subs l).totalDDRkB) := by
  obtain ⟨h1, h2, h3⟩ := memAcc_foldl root subs l ⟨0, 0, []⟩
  have hcontribH : hbmContrib m ≤ (l.map hbmContrib).sum :=
    List.single_le_sum (fun x _ => Nat.zero_le x) _ (List.mem_map_of_mem _ hm)
  have hcontribD : ddrContrib m ≤ (l.map ddrContrib).sum :=
    List.single_le_sum (fun x _ => Nat.zero_le x) _ (List.mem_map_of_mem _ hm)
  refine ⟨?_, ?_, ?_, ?_, ?_, ?_⟩
  · unfold subInfoOf
    rw [hp]
    simp [hsub, List.getElem?_eq_none hge]
  · simpa using h3
  · simpa using h1
  · simpa using h2
  · intro ht
    have : hbmContrib m = effSize m p >>> 10 := by
      unfold hbmContrib
      rw [hp]
      simp [ht]
    rw [← this]
    simpa using hcontribH.trans_eq (by simpa using h1.symm)
  · intro ht
    have : ddrContrib m = effSize m p >>> 10 := by
      unfold ddrContrib
      rw [hp]
      simp [ht]
    rw [← this]
    simpa using hcontribD.trans_eq (by simpa using h2.symm)

/-- C7 witness: one HBM module on out-of-range subdevice 5 while only one
subdevice exists. -/
theorem claim_c7_witness :
    ((⟨some ⟨2048, true, 5, MemType.hbm⟩, none⟩ : MemModule) ∈
      [(⟨some ⟨2048, true, 5, MemType.hbm⟩, none⟩ : MemModule)] ∧
     (⟨some ⟨2048, true, 5, MemType.hbm⟩, none⟩ : MemModule).props
        = some ⟨2048, true, 5, MemType.hbm⟩ ∧
     ([7] : List Nat).length ≤ 5) ∧
    (subInfoOf 1 [7] ⟨some ⟨2048, true, 5, MemType.hbm⟩, none⟩ = none ∧
     (memAccOf 1 [7] [⟨some ⟨2048, true, 5, MemType.hbm⟩, none⟩]).subInfos
        = [⟨some ⟨2048, true, 5, MemType.hbm⟩, none⟩].filterMap (subInfoOf 1 [7]) ∧
     (memAccOf 1 [7] [⟨some ⟨2048, true, 5, MemType.hbm⟩, none⟩]).totalHBMkB
        = ([⟨some ⟨2048, true, 5, MemType.hbm⟩, none⟩].map hbmContrib).sum ∧
     (memAccOf 1 [7] [⟨some ⟨2048, true, 5, MemType.hbm⟩, none⟩]).totalDDRkB
        = ([⟨some ⟨2048, true, 5, MemType.hbm⟩, none⟩].map ddrContrib).sum ∧
     ((⟨2048, true, 5, MemType.hbm⟩ : MemProps).mtype = MemType.hbm →
        effSize ⟨some ⟨2048, true, 5, MemType.hbm⟩, none⟩ ⟨2048, true, 5, MemType.hbm⟩ >>> 10 ≤
          (memAccOf 1 [7] [⟨some ⟨2048, true, 5, MemType.hbm⟩, none⟩]).totalHBMkB) ∧
     ((⟨2048, true, 5, MemType.hbm⟩ : MemProps).mtype.isDdr = true →
        effSize ⟨some ⟨2048, true, 5, MemType.hbm⟩, none⟩ ⟨2048, true, 5, MemType.hbm⟩ >>> 10 ≤
          (memAccOf 1 [7] [⟨some ⟨2048, true, 5, MemType.hbm⟩, none⟩]).totalDDRkB)) :=
  ⟨⟨by decide, rfl, by decide⟩,
   claim_c7 1 [7] [⟨some ⟨2048, true, 5, MemType.hbm⟩, none⟩]
     ⟨some ⟨2048, true, 5, MemType.hbm⟩, none⟩ ⟨2048, true, 5, MemType.hbm⟩
     (by decide) rfl rfl (by decide)⟩

/-- C8: a module reporting zero physical size whose live memory-state
query succeeds uses the live-state size instead, and that size (in
kibibytes) is folded into its technology bucket's aggregate total. -/
theorem claim_c8 (root : Nat) (subs : List Nat) (l : List MemModule)
    (m : MemModule) (p : MemProps) (s : MemState)
    (hm : m ∈ l) (hp : m.props = some p) (h0 : p.physicalSize = 0)
    (hs : m.state = some s) (_hnz : s.size ≠ 0) :
    effSize m p = s.size ∧
    (memAccOf root subs l).totalHBMkB = (l.map hbmContrib).sum ∧
    (memAccOf root subs l).totalDDRkB = (l.map ddrContrib).sum ∧
    (p.mtype = MemType.hbm → s.size >>> 10 ≤ (memAccOf root subs l).totalHBMkB) ∧
    (p.mtype.isDdr = true → s.size >>> 10 ≤ (memAccOf root subs l).totalDDRkB) := by
  obtain ⟨h1, h2, _⟩ := memAcc_foldl root subs l ⟨0, 0, []⟩
  have heff : effSize m p = s.size := by
    unfold effSize
    simp [h0, hs]
  have hcontribH : hbmContrib m ≤ (l.map hbmContrib).sum :=
    List.single_le_sum (fun x _ => Nat.zero_le x) _ (List.mem_map_of_mem _ hm)
  have hcontribD : ddrContrib m ≤ (l.map ddrContrib).sum :=
    List.single_le_sum (fun x _ => Nat.zero_le x) _ (List.mem_map_of_mem _ hm)
  refine ⟨heff, by simpa using h1, by simpa using h2, ?_, ?_⟩
  · intro ht
    have hc : hbmContrib m = s.size >>> 10 := by
      unfold hbmContrib
      rw [hp]
      simp [ht, ← heff]
    rw [← hc]
    simpa using hcontribH.trans_eq (by simpa using h1.symm)
  · intro ht
    have hc : ddrContrib m = s.size >>> 10 := by
      unfold ddrContrib
      rw [hp]
      simp [ht, ← heff]
    rw [← hc]
    simpa using hcontribD.trans_eq (by simpa using h2.symm)

/-- C8 witness: a DDR4 module with physical size 0 and live-state size
4096. -/
theorem claim_c8_witness :
    ((⟨some ⟨0, false, 0, MemType.ddr4⟩, some ⟨4096⟩⟩ : MemModule) ∈
      [(⟨some ⟨0, false, 0, MemType.ddr4⟩, some ⟨4096⟩⟩ : MemModule)] ∧
     (⟨4096⟩ : MemState).size ≠ 0) ∧
    (effSize ⟨some ⟨0, false, 0, MemType.ddr4⟩, some ⟨4096⟩⟩ ⟨0, false, 0, MemType.ddr4⟩
        = (⟨4096⟩ : MemState).size ∧
     (memAccOf 1 [] [⟨some ⟨0, false, 0, MemType.ddr4⟩, some ⟨4096⟩⟩]).totalHBMkB
        = ([⟨some ⟨0, false, 0, MemType.ddr4⟩, some ⟨4096⟩⟩].map hbmContrib).sum ∧
     (memAccOf 1 [] [⟨some ⟨0, false, 0, MemType.ddr4⟩, some ⟨4096⟩⟩]).totalDDRkB
        = ([⟨some ⟨0, false, 0, MemType.ddr4⟩, some ⟨4096⟩⟩].map ddrContrib).sum ∧
     ((⟨0, false, 0, MemType.ddr4⟩ : MemProps).mtype = MemType.hbm →
        (⟨4096⟩ : MemState).size >>> 10 ≤
          (memAccOf 1 [] [⟨some ⟨0, false, 0, MemType.ddr4⟩, some ⟨4096⟩⟩]).totalHBMkB) ∧
     ((⟨0, false, 0, MemType.ddr4⟩ : MemProps).mtype.isDdr = true →
        (⟨4096⟩ : MemState).size >>> 10 ≤
          (memAccOf 1 [] [⟨some ⟨0, false, 0, MemType.ddr4⟩, some ⟨4096⟩⟩]).totalDDRkB)) :=
  ⟨⟨by decide, by decide⟩,
   claim_c8 1 [] [⟨some ⟨0, false, 0, MemType.ddr4⟩, some ⟨4096⟩⟩]
     ⟨some ⟨0, false, 0, MemType.ddr4⟩, some ⟨4096⟩⟩ ⟨0, false, 0, MemType.ddr4⟩ ⟨4096⟩
     (by decide) rfl rfl rfl (by decide)⟩

/-! ## Bandwidth-accumulation lemmas -/

/-- Port identities agreeing in all three fields are equal. -/
theorem portId_ext {a b : PortId} (h1 : a.fabricId = b.fabricId)
    (h2 : a.attachId = b.attachId) (h3 : a.portNumber = b.portNumber) : a = b := by
  cases a
  cases b
  simp_all

/-- The pair body adds exactly the pure per-pair contribution at every
cell. -/
theorem xelinkAccumPair_eq (nr : Nat) (oa : List Nat) (p q : Port)
    (bws : Nat → Nat) (cell : Nat) :
    xelinkAccumPair nr oa p q bws cell = bws cell + pairDelta nr oa p q cell := by
  by_cases hc1 : p.state.remotePortId = q.props.portId
  case neg => simp [xelinkAccumPair, pairDelta, hc1]
  by_cases hc2 : q.props.model = "XeLink"
  case neg => simp [xelinkAccumPair, pairDelta, hc1, hc2]
  rcases hfi : osdevArrayFind oa p.osdev with _ | ii
  · simp [xelinkAccumPair, pairDelta, hc1, hc2, hfi]
  rcases hfj : osdevArrayFind oa q.osdev with _ | jj
  · simp [xelinkAccumPair, pairDelta, hc1, hc2, hfi, hfj]
  rcases hpar : p.parent_osdev with _ | pp
  · simp only [xelinkAccumPair, pairDelta, hc1, hc2, hfi, hfj, hpar, addFlat, if_true]
    split_ifs <;> omega
  rcases hqar : q.parent_osdev with _ | qp
  · simp only [xelinkAccumPair, pairDelta, hc1, hc2, hfi, hfj, hpar, hqar, addFlat, if_true]
    split_ifs <;> omega
  rcases hfi2 : osdevArrayFind oa pp with _ | ii2
  · simp only [xelinkAccumPair, pairDelta, hc1, hc2, hfi, hfj, hpar, hqar, hfi2, addFlat,
      if_true]
    split_ifs <;> omega
  rcases hfj2 : osdevArrayFind oa qp with _ | jj2
  · simp only [xelinkAccumPair, pairDelta, hc1, hc2, hfi, hfj, hpar, hqar, hfi2, hfj2,
      addFlat, if_true]
    split_ifs <;> omega
  simp only [xelinkAccumPair, pairDelta, hc1, hc2, hfi, hfj, hpar, hqar, hfi2, hfj2,
    addFlat, if_true]
  split_ifs <;> omega

/-- Left folds whose step adds a per-element amount at a fixed cell add
the sum of those amounts. -/
theorem foldl_addShift {α : Type} (cell : Nat) (d : α → Nat)
    (g : (Nat → Nat) → α → (Nat → Nat))
    (hg : ∀ b a, g b a cell = b cell + d a) :
    ∀ (l : List α) (b : Nat → Nat), (l.foldl g b) cell = b cell + (l.map d).sum := by
  intro l
  induction l with
  | nil => intro b; simp
  | cons a t ih =>
    intro b
    rw [List.foldl_cons, ih, hg]
    simp [Nat.add_assoc]

/-- Characterization of the accumulation phase: at every cell it adds
exactly the total healthy-pair contribution. -/
theorem connectAccum_eq (nr : Nat) (oa : List Nat) (ports : List Port)
    (bws : Nat → Nat) (cell : Nat) :
    connectAccum nr oa ports bws cell = bws cell + healthyDelta nr oa ports cell := by
  unfold connectAccum healthyDelta
  refine foldl_addShift cell _ _ ?_ ports.enum bws
  intro b ip
  by_cases hh : ip.2.state.status = PortStatus.healthy
  · simp only [hh, if_pos rfl]
    unfold pairDeltaAt
    refine foldl_addShift cell _ _ ?_ ports.enum b
    intro b2 jq
    by_cases hij : ip.1 = jq.1
    · simp [hij]
    · simp [hij, xelinkAccumPair_eq]
  · simp [hh]

/-- C3: for every ordered pair of distinct retained ports where the first
is healthy, the first's reported remote identity matches the second's
local identity in all three fields, the reported link technology is
"XeLink", and both owners resolve in the Device Registry, the matrix entry
at (index of first owner, index of second owner) receives the first
port's receive bit rate shifted to the source's megabytes/second unit;
the entry equals its prior value plus the sum of all per-link
contributions, so multiple qualifying links between the same index pair
add up. -/
theorem claim_c3 (nr : Nat) (oa : List Nat) (ports : List Port) (bws : Nat → Nat)
    (i j : Nat) (p q : Port) (ii jj : Nat)
    (hi : ports[i]? = some p) (hj : ports[j]? = some q) (hij : i ≠ j)
    (hh : p.state.status = PortStatus.healthy)
    (hfab : p.state.remotePortId.fabricId = q.props.portId.fabricId)
    (hatt : p.state.remotePortId.attachId = q.props.portId.attachId)
    (hpn : p.state.remotePortId.portNumber = q.props.portId.portNumber)
    (hm : q.props.model = "XeLink")
    (hfi : osdevArrayFind oa p.osdev = some ii)
    (hfj : osdevArrayFind oa q.osdev = some jj) :
    connectAccum nr oa ports bws (ii * nr + jj)
        = bws (ii * nr + jj) + healthyDelta nr oa ports (ii * nr + jj) ∧
    p.state.rxBitRate >>> 20 ≤ healthyDelta nr oa ports (ii * nr + jj) := by
  have hpq : p.state.remotePortId = q.props.portId := portId_ext hfab hatt hpn
  have hmemi : (i, p) ∈ ports.enum := List.mem_enum_iff_getElem?.mpr (by simpa using hi)
  have hmemj : (j, q) ∈ ports.enum := List.mem_enum_iff_getElem?.mpr (by simpa using hj)
  have h1 : p.state.rxBitRate >>> 20 ≤ pairDelta nr oa p q (ii * nr + jj) := by
    simp only [pairDelta, hpq, hm, hfi, hfj, if_true]
    omega
  have h2 : pairDelta nr oa p q (ii * nr + jj)
      ≤ pairDeltaAt nr oa ports i p (ii * nr + jj) := by
    unfold pairDeltaAt
    have hx := List.single_le_sum
      (l := ports.enum.map
        (fun jq => if i = jq.1 then 0 else pairDelta nr oa p jq.2 (ii * nr + jj)))
      (fun x _ => Nat.zero_le x) _ (List.mem_map_of_mem _ hmemj)
    simpa [hij] using hx
  have h3 : pairDeltaAt nr oa ports i p (ii * nr + jj)
      ≤ healthyDelta nr oa ports (ii * nr + jj) := by
    unfold healthyDelta
    have hx := List.single_le_sum
      (l := ports.enum.map
        (fun ip => if ip.2.state.status = PortStatus.healthy
                   then pairDeltaAt nr oa ports ip.1 ip.2 (ii * nr + jj) else 0))
      (fun x _ => Nat.zero_le x) _ (List.mem_map_of_mem _ hmemi)
    simpa [hh] using hx
  exact ⟨connectAccum_eq nr oa ports bws (ii * nr + jj),
         h1.trans (h2.trans h3)⟩

/-- C3 witness: two healthy ports wired to each other over XeLink, owners
at registry indices 0 and 1. -/
theorem claim_c3_witness :
    (([(⟨100, none, ⟨false, 0, "XeLink", ⟨1, 1, 1⟩⟩, ⟨PortStatus.healthy, ⟨2, 2, 2⟩, 2097152⟩⟩ : Port),
        ⟨200, none, ⟨false, 0, "XeLink", ⟨2, 2, 2⟩⟩, ⟨PortStatus.degraded, ⟨1, 1, 1⟩, 1048576⟩⟩])[0]?
      = some ⟨100, none, ⟨false, 0, "XeLink", ⟨1, 1, 1⟩⟩, ⟨PortStatus.healthy, ⟨2, 2, 2⟩, 2097152⟩⟩ ∧
     (0 : Nat) ≠ 1 ∧
     osdevArrayFind [100, 200] 100 = some 0 ∧
     osdevArrayFind [100, 200] 200 = some 1) ∧
    (connectAccum 2 [100, 200]
        [⟨100, none, ⟨false, 0, "XeLink", ⟨1, 1, 1⟩⟩, ⟨PortStatus.healthy, ⟨2, 2, 2⟩, 2097152⟩⟩,
         ⟨200, none, ⟨false, 0, "XeLink", ⟨2, 2, 2⟩⟩, ⟨PortStatus.degraded, ⟨1, 1, 1⟩, 1048576⟩⟩]
        (fun _ => 0) (0 * 2 + 1)
      = (fun _ => (0 : Nat)) (0 * 2 + 1) +
        healthyDelta 2 [100, 200]
          [⟨100, none, ⟨false, 0, "XeLink", ⟨1, 1, 1⟩⟩, ⟨PortStatus.healthy, ⟨2, 2, 2⟩, 2097152⟩⟩,
           ⟨200, none, ⟨false, 0, "XeLink", ⟨2, 2, 2⟩⟩, ⟨PortStatus.degraded, ⟨1, 1, 1⟩, 1048576⟩⟩]
          (0 * 2 + 1) ∧
     (⟨100, none, ⟨false, 0, "XeLink", ⟨1, 1, 1⟩⟩,
        ⟨PortStatus.healthy, ⟨2, 2, 2⟩, 2097152⟩⟩ : Port).state.rxBitRate >>> 20 ≤
       healthyDelta 2 [100, 200]
         [⟨100, none, ⟨false, 0, "XeLink", ⟨1, 1, 1⟩⟩, ⟨PortStatus.healthy, ⟨2, 2, 2⟩, 2097152⟩⟩,
          ⟨200, none, ⟨false, 0, "XeLink", ⟨2, 2, 2⟩⟩, ⟨PortStatus.degraded, ⟨1, 1, 1⟩, 1048576⟩⟩]
         (0 * 2 + 1)) :=
  ⟨⟨by decide, by decide, by decide, by decide⟩,
   claim_c3 2 [100, 200]
     [⟨100, none, ⟨false, 0, "XeLink", ⟨1, 1, 1⟩⟩, ⟨PortStatus.healthy, ⟨2, 2, 2⟩, 2097152⟩⟩,
      ⟨200, none, ⟨false, 0, "XeLink", ⟨2, 2, 2⟩⟩, ⟨PortStatus.degraded, ⟨1, 1, 1⟩, 1048576⟩⟩]
     (fun _ => 0) 0 1
     ⟨100, none, ⟨false, 0, "XeLink", ⟨1, 1, 1⟩⟩, ⟨PortStatus.healthy, ⟨2, 2, 2⟩, 2097152⟩⟩
     ⟨200, none, ⟨false, 0, "XeLink", ⟨2, 2, 2⟩⟩, ⟨PortStatus.degraded, ⟨1, 1, 1⟩, 1048576⟩⟩
     0 1 (by decide) (by decide) (by decide) rfl rfl rfl rfl rfl (by decide) (by decide)⟩

/-- C4: for a qualifying XeLink link whose two ports are both
subdevice-owned (both record a parent device) with both parents resolving
in the Device Registry, the same per-link amount is additionally
accumulated into the matrix entry between the two parent devices'
indices. -/
theorem claim_c4 (nr : Nat) (oa : List Nat) (ports : List Port) (bws : Nat → Nat)
    (i j : Nat) (p q : Port) (ii jj ii2 jj2 pp qp : Nat)
    (hi : ports[i]? = some p) (hj : ports[j]? = some q) (hij : i ≠ j)
    (hh : p.state.status = PortStatus.healthy)
    (hfab : p.state.remotePortId.fabricId = q.props.portId.fabricId)
    (hatt : p.state.remotePortId.attachId = q.props.portId.attachId)
    (hpn : p.state.remotePortId.portNumber = q.props.portId.portNumber)
    (hm : q.props.model = "XeLink")
    (hfi : osdevArrayFind oa p.osdev = some ii)
    (hfj : osdevArrayFind oa q.osdev = some jj)
    (hpp : p.parent_osdev = some pp) (hqp : q.parent_osdev = some qp)
    (hfi2 : osdevArrayFind oa pp = some ii2)
    (hfj2 : osdevArrayFind oa qp = some jj2) :
    connectAccum nr oa ports bws (ii2 * nr + jj2)
        = bws (ii2 * nr + jj2) + healthyDelta nr oa ports (ii2 * nr + jj2) ∧
    p.state.rxBitRate >>> 20 ≤ healthyDelta nr oa ports (ii2 * nr + jj2) := by
  have hpq : p.state.remotePortId = q.props.portId := portId_ext hfab hatt hpn
  have hmemi : (i, p) ∈ ports.enum := List.mem_enum_iff_getElem?.mpr (by simpa using hi)
  have hmemj : (j, q) ∈ ports.enum := List.mem_enum_iff_getElem?.mpr (by simpa using hj)
  have h1 : p.state.rxBitRate >>> 20 ≤ pairDelta nr oa p q (ii2 * nr + jj2) := by
    simp only [pairDelta, hpq, hm, hfi, hfj, hpp, hqp, hfi2, hfj2, if_true]
    omega
  have h2 : pairDelta nr oa p q (ii2 * nr + jj2)
      ≤ pairDeltaAt nr oa ports i p (ii2 * nr + jj2) := by
    unfold pairDeltaAt
    have hx := List.single_le_sum
      (l := ports.enum.map
        (fun jq => if i = jq.1 then 0 else pairDelta nr oa p jq.2 (ii2 * nr + jj2)))
      (fun x _ => Nat.zero_le x) _ (List.mem_map_of_mem _ hmemj)
    simpa [hij] using hx
  have h3 : pairDeltaAt nr oa ports i p (ii2 * nr + jj2)
      ≤ healthyDelta nr oa ports (ii2 * nr + jj2) := by
    unfold healthyDelta
    have hx := List.single_le_sum
      (l := ports.enum.map
        (fun ip => if ip.2.state.status = PortStatus.healthy
                   then pairDeltaAt nr oa ports ip.1 ip.2 (ii2 * nr + jj2) else 0))
      (fun x _ => Nat.zero_le x) _ (List.mem_map_of_mem _ hmemi)
    simpa [hh] using hx
  exact ⟨connectAccum_eq nr oa ports bws (ii2 * nr + jj2),
         h1.trans (h2.trans h3)⟩

/-- C4 witness: two subdevice-owned ports (parents at registry indices 0
and 2) wired over XeLink; the parent-pair entry receives the amount. -/
theorem claim_c4_witness :
    (([(⟨101, some 100, ⟨true, 0, "XeLink", ⟨1, 1, 1⟩⟩, ⟨PortStatus.healthy, ⟨2, 2, 2⟩, 2097152⟩⟩ : Port),
        ⟨201, some 200, ⟨true, 0, "XeLink", ⟨2, 2, 2⟩⟩, ⟨PortStatus.healthy, ⟨1, 1, 1⟩, 2097152⟩⟩])[0]?
      = some ⟨101, some 100, ⟨true, 0, "XeLink", ⟨1, 1, 1⟩⟩, ⟨PortStatus.healthy, ⟨2, 2, 2⟩, 2097152⟩⟩ ∧
     osdevArrayFind [100, 101, 200, 201] 101 = some 1 ∧
     osdevArrayFind [100, 101, 200, 201] 201 = some 3 ∧
     osdevArrayFind [100, 101, 200, 201] 100 = some 0 ∧
     osdevArrayFind [100, 101, 200, 201] 200 = some 2) ∧
    (connectAccum 4 [100, 101, 200, 201]
        [⟨101, some 100, ⟨true, 0, "XeLink", ⟨1, 1, 1⟩⟩, ⟨PortStatus.healthy, ⟨2, 2, 2⟩, 2097152⟩⟩,
         ⟨201, some 200, ⟨true, 0, "XeLink", ⟨2, 2, 2⟩⟩, ⟨PortStatus.healthy, ⟨1, 1, 1⟩, 2097152⟩⟩]
        (fun _ => 0) (0 * 4 + 2)
      = (fun _ => (0 : Nat)) (0 * 4 + 2) +
        healthyDelta 4 [100, 101, 200, 201]
          [⟨101, some 100, ⟨true, 0, "XeLink", ⟨1, 1, 1⟩⟩, ⟨PortStatus.healthy, ⟨2, 2, 2⟩, 2097152⟩⟩,
           ⟨201, some 200, ⟨true, 0, "XeLink", ⟨2, 2, 2⟩⟩, ⟨PortStatus.healthy, ⟨1, 1, 1⟩, 2097152⟩⟩]
          (0 * 4 + 2) ∧
     (⟨101, some 100, ⟨true, 0, "XeLink", ⟨1, 1, 1⟩⟩,
        ⟨PortStatus.healthy, ⟨2, 2, 2⟩, 2097152⟩⟩ : Port).state.rxBitRate >>> 20 ≤
       healthyDelta 4 [100, 101, 200, 201]
         [⟨101, some 100, ⟨true, 0, "XeLink", ⟨1, 1, 1⟩⟩, ⟨PortStatus.healthy, ⟨2, 2, 2⟩, 2097152⟩⟩,
          ⟨201, some 200, ⟨true, 0, "XeLink", ⟨2, 2, 2⟩⟩, ⟨PortStatus.healthy, ⟨1, 1, 1⟩, 2097152⟩⟩]
         (0 * 4 + 2)) :=
  ⟨⟨by decide, by decide, by decide, by decide, by decide⟩,
   claim_c4 4 [100, 101, 200, 201]
     [⟨101, some 100, ⟨true, 0, "XeLink", ⟨1, 1, 1⟩⟩, ⟨PortStatus.healthy, ⟨2, 2, 2⟩, 2097152⟩⟩,
      ⟨201, some 200, ⟨true, 0, "XeLink", ⟨2, 2, 2⟩⟩, ⟨PortStatus.healthy, ⟨1, 1, 1⟩, 2097152⟩⟩]
     (fun _ => 0) 0 1
     ⟨101, some 100, ⟨true, 0, "XeLink", ⟨1, 1, 1⟩⟩, ⟨PortStatus.healthy, ⟨2, 2, 2⟩, 2097152⟩⟩
     ⟨201, some 200, ⟨true, 0, "XeLink", ⟨2, 2, 2⟩⟩, ⟨PortStatus.healthy, ⟨1, 1, 1⟩, 2097152⟩⟩
     1 3 0 2 100 200
     (by decide) (by decide) (by decide) rfl rfl rfl rfl rfl
     (by decide) (by decide) rfl rfl (by decide) (by decide)⟩

/-! ## Sentinel-fill lemmas -/

/-- Folds whose every step either writes the constant or leaves the cell
unchanged. -/
theorem foldl_const_cases {α : Type} (v : Nat) (g : (Nat → Nat) → α → (Nat → Nat))
    (hg : ∀ b a x, g b a x = v ∨ g b a x = b x) :
    ∀ (l : List α) (b : Nat → Nat) (x : Nat),
      (l.foldl g b) x = v ∨ (l.foldl g b) x = b x := by
  intro l
  induction l with
  | nil => intro b x; exact Or.inr rfl
  | cons a t ih =>
    intro b x
    rw [List.foldl_cons]
    rcases ih (g b a) x with h | h
    · exact Or.inl h
    · rcases hg b a x with h2 | h2
      · exact Or.inl (h.trans h2)
      · exact Or.inr (h.trans h2)

/-- Such folds preserve a cell already holding the constant. -/
theorem foldl_const_pres {α : Type} (v : Nat) (g : (Nat → Nat) → α → (Nat → Nat))
    (hg : ∀ b a x, g b a x = v ∨ g b a x = b x)
    (l : List α) (b : Nat → Nat) (x : Nat) (hb : b x = v) : (l.foldl g b) x = v := by
  rcases foldl_const_cases v g hg l b x with h | h
  · exact h
  · exact h.trans hb

/-- Such folds write the constant at a cell some element surely sets. -/
theorem foldl_const_mem {α : Type} (v : Nat) (g : (Nat → Nat) → α → (Nat → Nat))
    (hg : ∀ b a x, g b a x = v ∨ g b a x = b x) (x : Nat) (a : α)
    (hset : ∀ b, g b a x = v) :
    ∀ (l : List α), a ∈ l → ∀ b, (l.foldl g b) x = v := by
  intro l
  induction l with
  | nil => intro h; cases h
  | cons hd t ih =>
    intro ha b
    rw [List.foldl_cons]
    rcases List.mem_cons.mp ha with heq | hmem
    · subst heq
      exact foldl_const_pres v g hg t (g b a) x (hset b)
    · exact ih hmem (g b hd)

/-- Every write of the block loops stores the sentinel 1000000. -/
theorem writeBlock_cases (nr i c : Nat) (bws : Nat → Nat) (x : Nat) :
    writeBlock nr i c bws x = 1000000 ∨ writeBlock nr i c bws x = bws x := by
  unfold writeBlock
  refine foldl_const_cases 1000000 _ ?_ _ bws x
  intro b j2 y
  refine foldl_const_cases 1000000 _ ?_ _ b y
  intro b2 k2 y2
  simp only [setFlat]
  split
  · exact Or.inl rfl
  · exact Or.inr rfl

/-- The block loops preserve a cell already holding the sentinel. -/
theorem writeBlock_pres (nr i c : Nat) (bws : Nat → Nat) (x : Nat)
    (hb : bws x = 1000000) : writeBlock nr i c bws x = 1000000 := by
  rcases writeBlock_cases nr i c bws x with h | h
  · exact h
  · exact h.trans hb

/-- The block loops set every cell of the `(c+1)×(c+1)` block based at
`(i, i)` to the sentinel. -/
theorem writeBlock_sets (nr i c j k : Nat) (hj : j ≤ c) (hk : k ≤ c) (bws : Nat → Nat) :
    writeBlock nr i c bws ((i + j) * nr + (i + k)) = 1000000 := by
  unfold writeBlock
  have hinner : ∀ (j2 : Nat) b (a : Nat) x,
      setFlat b ((i + j2) * nr + (i + a)) 1000000 x = 1000000 ∨
      setFlat b ((i + j2) * nr + (i + a)) 1000000 x = b x := by
    intro j2 b a x
    simp only [setFlat]
    split
    · exact Or.inl rfl
    · exact Or.inr rfl
  refine foldl_const_mem 1000000 _ ?_ ((i + j) * nr + (i + k)) j ?_
    (List.range (c + 1)) (List.mem_range.mpr (by omega)) bws
  · intro b a x
    exact foldl_const_cases 1000000 _ (hinner a) _ b x
  · intro b
    refine foldl_const_mem 1000000 _ (hinner j) ((i + j) * nr + (i + k)) k ?_
      (List.range (c + 1)) (List.mem_range.mpr (by omega)) b
    intro b2
    simp [setFlat]

/-- One-step unfolding of the outer fill walk. -/
theorem sentinelFill_unfold (nr : Nat) (nrsd : Nat → Nat) (i : Nat) (bws : Nat → Nat) :
    sentinelFill nr nrsd i bws =
      if i < nr then sentinelFill nr nrsd (i + nrsd i + 1) (writeBlock nr i (nrsd i) bws)
      else bws := by
  rw [sentinelFill]
  by_cases h : i < nr <;> simp [h]

/-- The fill walk preserves a cell already holding the sentinel. -/
theorem sentinelFill_pres (nr : Nat) (nrsd : Nat → Nat) :
    ∀ (n i : Nat) (bws : Nat → Nat) (x : Nat), nr - i ≤ n → bws x = 1000000 →
      sentinelFill nr nrsd i bws x = 1000000 := by
  intro n
  induction n with
  | zero =>
    intro i bws x hn hb
    rw [sentinelFill_unfold]
    have h : ¬ i < nr := by omega
    simp [h, hb]
  | succ n ih =>
    intro i bws x hn hb
    rw [sentinelFill_unfold]
    by_cases h : i < nr
    · rw [if_pos h]
      exact ih (i + nrsd i + 1) _ x (by omega) (writeBlock_pres nr i (nrsd i) bws x hb)
    · rw [if_neg h]
      exact hb

/-- Landing at `i < nr`, the walk sets the whole block based at `i` and
keeps it set while skipping past the range. -/
theorem sentinelFill_lands (nr : Nat) (nrsd : Nat → Nat) (i : Nat) (bws : Nat → Nat)
    (j k : Nat) (hi : i < nr) (hj : j ≤ nrsd i) (hk : k ≤ nrsd i) :
    sentinelFill nr nrsd i bws ((i + j) * nr + (i + k)) = 1000000 := by
  rw [sentinelFill_unfold, if_pos hi]
  exact sentinelFill_pres nr nrsd (nr - (i + nrsd i + 1)) _ _ _ le_rfl
    (writeBlock_sets nr i (nrsd i) j k hj hk bws)

/-- The walk from 0 reaches every landing position with some intermediate
matrix. -/
theorem lands_unfold (nr : Nat) (nrsd : Nat → Nat) {i : Nat} (hl : Lands nrsd i) :
    ∀ bws, ∃ b0, sentinelFill nr nrsd 0 bws = sentinelFill nr nrsd i b0 := by
  induction hl with
  | zero => intro bws; exact ⟨bws, rfl⟩
  | step i0 hl0 ih =>
    intro bws
    obtain ⟨b0, h0⟩ := ih bws
    by_cases h : i0 < nr
    · exact ⟨writeBlock nr i0 (nrsd i0) b0, by rw [h0, sentinelFill_unfold, if_pos h]⟩
    · refine ⟨b0, ?_⟩
      rw [h0, sentinelFill_unfold, if_neg h, sentinelFill_unfold,
        if_neg (by omega : ¬ i0 + nrsd i0 + 1 < nr)]

/-- C2: at every position `i` where the outer fill walk lands, with `c`
the recorded subdevice count at `i`, every flat matrix cell of the
`(c+1)×(c+1)` block with rows and columns in `[i, i+c]` ends up holding
the sentinel 1000000, regardless of any previously accumulated value, and
the walk continues past the whole range (the next landing being
`i + c + 1`, as the `Lands` relation states). -/
theorem claim_c2 (nr : Nat) (nrsd : Nat → Nat) (bws : Nat → Nat) (i j k : Nat)
    (hl : Lands nrsd i) (hi : i < nr) (hj : j ≤ nrsd i) (hk : k ≤ nrsd i) :
    sentinelFill nr nrsd 0 bws ((i + j) * nr + (i + k)) = 1000000 := by
  obtain ⟨b0, h0⟩ := lands_unfold nr nrsd hl bws
  rw [h0]
  exact sentinelFill_lands nr nrsd i b0 j k hi hj hk

/-- C2 witness: with every entry recording 2 subdevices, the walk lands at
3 and the cell (4, 5) of a 7-wide matrix holds the sentinel. -/
theorem claim_c2_witness :
    ((3 : Nat) < 7 ∧ (1 : Nat) ≤ (fun _ => 2 : Nat → Nat) 3 ∧
      (2 : Nat) ≤ (fun _ => 2 : Nat → Nat) 3) ∧
    sentinelFill 7 (fun _ => 2) 0 (fun _ => 5) ((3 + 1) * 7 + (3 + 2)) = 1000000 :=
  ⟨⟨by decide, by decide, by decide⟩,
   claim_c2 7 (fun _ => 2) (fun _ => 5) 3 1 2 (Lands.step 0 Lands.zero)
     (by decide) (by decide) (by decide)⟩

/-! ## Device Registry contiguity lemmas -/

/-- Every subdevice registry entry of device `z` has shape `(z, some k)`. -/
theorem subEntries_shape (z : Nat) (sb : List Bool) :
    ∀ x ∈ subEntries z sb, ∃ k, x = (z, some k) := by
  intro x hx
  rcases List.mem_filterMap.mp hx with ⟨kb, _, hkb⟩
  by_cases h : kb.2 = true
  · rw [if_pos h] at hkb
    exact ⟨kb.1, (Option.some.inj hkb).symm⟩
  · rw [if_neg h] at hkb
    cases hkb

/-- Every entry appended from position `z` onward belongs to a device of
sequence number at least `z`. -/
theorem mem_buildArray_le (specs : List DevSpec) :
    ∀ (z : Nat) (e : DevObj), e ∈ buildArray z specs → z ≤ e.1 := by
  induction specs with
  | nil => intro z e h; simp [buildArray] at h
  | cons s rest ih =>
    intro z e h
    simp only [buildArray] at h
    by_cases hok : s.ok
    · rw [if_pos hok] at h
      rcases List.mem_append.mp h with h1 | h1
      · rcases List.mem_cons.mp h1 with rfl | h2
        · simp
        · obtain ⟨k, rfl⟩ := subEntries_shape z s.subok _ h2
          simp
      · exact le_trans (by omega) (ih (z + 1) e h1)
    · rw [if_neg hok] at h
      exact ih z e h

/-- The device at registry position `i` is immediately followed by its
surviving subdevice entries in enumeration order, and no other device's
entry lies in that range. -/
theorem buildArray_block (specs : List DevSpec) :
    ∀ (z i d : Nat),
      (buildArray z specs)[i]? = some (d, none) →
      ∃ s ∈ specs, s.ok = true ∧
        (∀ k, ∀ hk : k < (subEntries d s.subok).length,
          (buildArray z specs)[i + 1 + k]? = some ((subEntries d s.subok).get ⟨k, hk⟩)) ∧
        (∀ m e, (buildArray z specs)[m]? = some e → e.1 = d →
          i ≤ m ∧ m ≤ i + (subEntries d s.subok).length) := by
  induction specs with
  | nil => intro z i d h; simp [buildArray] at h
  | cons s rest ih =>
    intro z i d h
    by_cases hok : s.ok
    · simp only [buildArray, if_pos hok] at h ⊢
      by_cases hik : i < ((z, (none : Option Nat)) :: subEntries z s.subok).length
      · rw [List.getElem?_append_left hik] at h
        have hi0 : i = 0 ∧ d = z := by
          cases i with
          | zero =>
            simp only [List.getElem?_cons_zero, Option.some.injEq, Prod.mk.injEq] at h
            exact ⟨rfl, h.1.symm⟩
          | succ n =>
            have h2 : (subEntries z s.subok)[n]? = some (d, none) := by simpa using h
            obtain ⟨k, hk⟩ := subEntries_shape z s.subok _ (List.getElem?_mem h2)
            simp at hk
        obtain ⟨rfl, rfl⟩ := hi0
        refine ⟨s, List.mem_cons_self s rest, hok, ?_, ?_⟩
        · intro k hk
          have hlen : 0 + 1 + k < ((d, (none : Option Nat)) :: subEntries d s.subok).length := by
            simp only [List.length_cons]
            omega
          rw [List.getElem?_append_left hlen, show 0 + 1 + k = k + 1 by omega,
            List.getElem?_cons_succ, List.getElem?_eq_getElem hk]
          simp
        · intro m e hm hd
          by_cases hmk : m < ((d, (none : Option Nat)) :: subEntries d s.subok).length
          · refine ⟨by omega, ?_⟩
            simp only [List.length_cons] at hmk
            omega
          · push_neg at hmk
            rw [List.getElem?_append_right hmk] at hm
            have hge := mem_buildArray_le rest (d + 1) e (List.getElem?_mem hm)
            omega
      · push_neg at hik
        rw [List.getElem?_append_right hik] at h
        obtain ⟨s2, hs2, hok2, ha, hb⟩ := ih (z + 1) _ d h
        have hd1 := mem_buildArray_le rest (z + 1) (d, none) (List.getElem?_mem h)
        simp only [] at hd1
        refine ⟨s2, List.mem_cons_of_mem s hs2, hok2, ?_, ?_⟩
        · intro k hk
          have hge : ((z, (none : Option Nat)) :: subEntries z s.subok).length ≤ i + 1 + k := by
            omega
          rw [List.getElem?_append_right hge,
            show i + 1 + k - ((z, (none : Option Nat)) :: subEntries z s.subok).length
              = (i - ((z, (none : Option Nat)) :: subEntries z s.subok).length) + 1 + k by omega]
          exact ha k hk
        · intro m e hm hd
          by_cases hmk : m < ((z, (none : Option Nat)) :: subEntries z s.subok).length
          · rw [List.getElem?_append_left hmk] at hm
            have hz : e.1 = z := by
              rcases List.mem_cons.mp (List.getElem?_mem hm) with rfl | h2
              · rfl
              · obtain ⟨k, rfl⟩ := subEntries_shape z s.subok _ h2
                rfl
            omega
          · push_neg at hmk
            rw [List.getElem?_append_right hmk] at hm
            obtain ⟨hm1, hm2⟩ := hb _ e hm hd
            constructor <;> omega
    · simp only [buildArray, if_neg hok] at h ⊢
      obtain ⟨s2, hs2, hrest⟩ := ih z i d h
      exact ⟨s2, List.mem_cons_of_mem s hs2, hrest⟩

/-- The registry append sequence coincides with the tree-insertion
sequence. -/
theorem buildArray_eq_inserts : ∀ (specs : List DevSpec) (z : Nat),
    buildArray z specs = buildInserts z specs := by
  intro specs
  induction specs with
  | nil => intro z; rfl
  | cons s rest ih =>
    intro z
    simp only [buildArray, buildInserts, ih]

/-- C1: the Device Registry's iteration order equals tree-insertion order,
and every appended device's entry is immediately followed by the entries
of all of its successfully created subdevices in enumeration order, with
no entry of any other device in that range. -/
theorem claim_c1 (specs : List DevSpec) (i d : Nat)
    (hd : (buildArray 0 specs)[i]? = some (d, none)) :
    buildArray 0 specs = buildInserts 0 specs ∧
    ∃ s ∈ specs, s.ok = true ∧
      (∀ k, ∀ hk : k < (subEntries d s.subok).length,
        (buildArray 0 specs)[i + 1 + k]? = some ((subEntries d s.subok).get ⟨k, hk⟩)) ∧
      (∀ m e, (buildArray 0 specs)[m]? = some e → e.1 = d →
        i ≤ m ∧ m ≤ i + (subEntries d s.subok).length) :=
  ⟨buildArray_eq_inserts specs 0, buildArray_block specs 0 i d hd⟩

/-- C1 witness: two devices, the first with subdevices 0 and 2 surviving
(subdevice 1 skipped); the block of device 0 occupies positions 0..2. -/
theorem claim_c1_witness :
    ((buildArray 0 [⟨true, [true, false, true]⟩, ⟨true, []⟩])[0]? = some (0, none)) ∧
    (buildArray 0 [⟨true, [true, false, true]⟩, ⟨true, []⟩]
        = buildInserts 0 [⟨true, [true, false, true]⟩, ⟨true, []⟩] ∧
     ∃ s ∈ [(⟨true, [true, false, true]⟩ : DevSpec), ⟨true, []⟩], s.ok = true ∧
       (∀ k, ∀ hk : k < (subEntries 0 s.subok).length,
         (buildArray 0 [⟨true, [true, false, true]⟩, ⟨true, []⟩])[0 + 1 + k]?
           = some ((subEntries 0 s.subok).get ⟨k, hk⟩)) ∧
       (∀ m e, (buildArray 0 [⟨true, [true, false, true]⟩, ⟨true, []⟩])[m]? = some e →
         e.1 = 0 → 0 ≤ m ∧ m ≤ 0 + (subEntries 0 s.subok).length)) :=
  ⟨by decide, claim_c1 [⟨true, [true, false, true]⟩, ⟨true, []⟩] 0 0 (by decide)⟩

end LevelZero
